import Mathlib

/-!
A formal model of the SM-2 spaced-repetition scheduler and queue logic of
`src/js/flashcard.js` (class `SpacedRepetitionManager`), with proofs of the
specification's claims about it.

Modelling conventions:
* JavaScript numbers are modelled as exact rationals (`ℚ`).  Every constant the
  scheduler uses (1.3, 2.5, 0.15, 0.2, 0.5, 0.3, 0.8, 1/1440, ...) and every
  operation applied to them (+, -, *, Math.max, Math.min, Math.floor,
  Math.round) is treated exactly; for the comparisons and 2-decimal roundings
  proved here the double-precision evaluation of the running code agrees with
  the exact rational one.
* A JavaScript numeric field that can be `undefined`, and the value `NaN`, are
  both modelled as `none : Option ℚ`; arithmetic is strict in `none`
  (`undefined - 0.2`, `Math.max(1.3, NaN)`, ... are all `NaN`, i.e. `none`),
  matching JS coercion of `undefined` to `NaN` and NaN propagation.
* `new Date()` / "today" readings of the ambient clock are passed to the model
  as explicit arguments (`nowMs` : milliseconds since the Unix epoch, resp.
  `today` : a `YYYY-MM-DD` string).  The source reads them from the global
  clock inside the functions (flashcard.js lines 604, 728, 871).
* `new Date(NaN).toISOString()` throws a `RangeError`; the model returns
  `Except.error JsError.rangeError` at the corresponding place.
-/

namespace Anki

/-- Error raised by `new Date(NaN).toISOString()` (a JS `RangeError`). -/
inductive JsError where
  | rangeError
deriving DecidableEq, Repr

/-- JS `a + b` on possibly-`undefined`/NaN numbers. -/
def jsAdd : Option ℚ → Option ℚ → Option ℚ
  | some x, some y => some (x + y)
  | _, _ => none

/-- JS `a - b` on possibly-`undefined`/NaN numbers. -/
def jsSub : Option ℚ → Option ℚ → Option ℚ
  | some x, some y => some (x - y)
  | _, _ => none

/-- JS `a * b` on possibly-`undefined`/NaN numbers. -/
def jsMul : Option ℚ → Option ℚ → Option ℚ
  | some x, some y => some (x * y)
  | _, _ => none

/-- JS `Math.max(a, b)`; any NaN argument makes the result NaN. -/
def jsMax : Option ℚ → Option ℚ → Option ℚ
  | some x, some y => some (max x y)
  | _, _ => none

/-- JS `Math.min(a, b)`; any NaN argument makes the result NaN. -/
def jsMin : Option ℚ → Option ℚ → Option ℚ
  | some x, some y => some (min x y)
  | _, _ => none

/-- JS `v || d` for a numeric `v`: `undefined`, `NaN` and `0` are falsy. -/
def jsFalsyOr (v : Option ℚ) (d : ℚ) : ℚ :=
  match v with
  | none => d
  | some x => if x = 0 then d else x

/-- JS `Math.floor q` (`Rat.floor` is used rather than `Int.floor` so that
concrete values reduce in the kernel; the two agree, see `ratFloor_eq` below). -/
def jsFloor (q : ℚ) : ℤ := q.floor

/-- JS `Math.round q` (rounds half toward positive infinity). -/
def jsRound (q : ℚ) : ℚ := ((jsFloor (q + 1/2) : ℤ) : ℚ)

/-- The `Math.round(x * 100) / 100` rounding of flashcard.js line 655. -/
def round2 (q : ℚ) : ℚ := jsRound (q * 100) / 100

/-- `round2` lifted over a possibly-NaN number (`Math.round NaN = NaN`). -/
def jsRound2 : Option ℚ → Option ℚ := Option.map round2

/-- Truncation toward zero, as applied by the JS `Date` constructor to a
fractional millisecond time value. -/
def jsTrunc (q : ℚ) : ℤ := if 0 ≤ q then jsFloor q else -(jsFloor (-q))

/-- Leap-year test of the proleptic Gregorian calendar (as used by JS dates). -/
def isLeap (y : ℕ) : Bool := y % 4 = 0 && (y % 100 ≠ 0 || y % 400 = 0)

/-- Number of days in a month of the Gregorian calendar. -/
def daysInMonth (y m : ℕ) : ℕ :=
  if m = 2 then (if isLeap y then 29 else 28)
  else if m = 4 ∨ m = 6 ∨ m = 9 ∨ m = 11 then 30
  else 31

/-- Convert a civil date to days since 1970-01-01 (Gregorian calendar,
the count JS dates use at UTC). -/
def daysFromCivil (y : ℤ) (m d : ℕ) : ℤ :=
  let y' : ℤ := y - (if m ≤ 2 then 1 else 0)
  let era : ℤ := Int.fdiv y' 400
  let yoe : ℕ := (y' - era * 400).toNat
  let mp : ℕ := if 2 < m then m - 3 else m + 9
  let doy : ℕ := (153 * mp + 2) / 5 + d - 1
  let doe : ℕ := yoe * 365 + yoe / 4 - yoe / 100 + doy
  era * 146097 + doe - 719468

/-- Convert days since 1970-01-01 back to a civil date `(year, month, day)`. -/
def civilFromDays (z : ℤ) : ℤ × ℕ × ℕ :=
  let z' : ℤ := z + 719468
  let era : ℤ := Int.fdiv z' 146097
  let doe : ℕ := (z' - era * 146097).toNat
  let yoe : ℕ := (doe - doe / 1460 + doe / 36524 - doe / 146096) / 365
  let doy : ℕ := doe - (365 * yoe + yoe / 4 - yoe / 100)
  let mp : ℕ := (5 * doy + 2) / 153
  let d : ℕ := doy - (153 * mp + 2) / 5 + 1
  let m : ℕ := if mp < 10 then mp + 3 else mp - 9
  ((if m ≤ 2 then (yoe : ℤ) + era * 400 + 1 else (yoe : ℤ) + era * 400), m, d)

/-- Zero-pad a natural number to two digits. -/
def pad2 (n : ℕ) : String := if n < 10 then "0" ++ toString n else toString n

/-- Zero-pad a natural number to three digits. -/
def pad3 (n : ℕ) : String :=
  if n < 10 then "00" ++ toString n
  else if n < 100 then "0" ++ toString n
  else toString n

/-- Render a year; the development only uses four-digit years, which JS
renders without padding or sign. -/
def padYear (y : ℤ) : String := toString y

/-- JS `new Date(t).toISOString()` for an integral millisecond time value
(UTC calendar). -/
def toISOString (t : ℤ) : String :=
  let days := Int.fdiv t 86400000
  let ms := (Int.fmod t 86400000).toNat
  let c := civilFromDays days
  padYear c.1 ++ "-" ++ pad2 c.2.1 ++ "-" ++ pad2 c.2.2 ++ "T" ++
    pad2 (ms / 3600000) ++ ":" ++ pad2 (ms % 3600000 / 60000) ++ ":" ++
    pad2 (ms % 60000 / 1000) ++ "." ++ pad3 (ms % 1000) ++ "Z"

/-- The date part of `toISOString`, i.e. `toISOString(t).split('T')[0]`
(flashcard.js line 652). -/
def msToDateString (t : ℤ) : String :=
  let c := civilFromDays (Int.fdiv t 86400000)
  padYear c.1 ++ "-" ++ pad2 c.2.1 ++ "-" ++ pad2 c.2.2

/-- Decimal digit value of a character. -/
def digit? (c : Char) : Option ℕ :=
  if c.isDigit then some (c.toNat - 48) else none

/-- Parse a canonical `YYYY-MM-DD` string to days since the epoch, the way
`new Date(dateString)` resolves such strings (date-only ISO forms are UTC).
Non-canonical or out-of-range strings give an invalid date (`none`, i.e. a
NaN time value).  The code only ever stores canonical strings (they come from
`toISOString(..).split('T')[0]`). -/
def parseDate (s : String) : Option ℤ :=
  match s.data with
  | [y1, y2, y3, y4, s1, m1, m2, s2, d1, d2] =>
    if s1 = '-' ∧ s2 = '-' then
      match digit? y1, digit? y2, digit? y3, digit? y4,
            digit? m1, digit? m2, digit? d1, digit? d2 with
      | some a1, some a2, some a3, some a4, some b1, some b2, some c1, some c2 =>
        let y := a1 * 1000 + a2 * 100 + a3 * 10 + a4
        let m := b1 * 10 + b2
        let d := c1 * 10 + c2
        if 1 ≤ m ∧ m ≤ 12 ∧ 1 ≤ d ∧ d ≤ daysInMonth y m then
          some (daysFromCivil (y : ℤ) m d)
        else none
      | _, _, _, _, _, _, _, _ => none
    else none
  | _ => none

/-- The per-card scheduling state handled by `SpacedRepetitionManager`.
Numeric fields are `Option ℚ` because they may be absent (`undefined`) on
states coming from storage; string fields record what the code stores. -/
structure CardState where
  interval : Option ℚ
  easeFactor : Option ℚ
  repetitions : Option ℚ
  dueDate : String
  createdAt : Option String
  lastReviewed : Option String
  totalReviews : Option ℚ
  correctReviews : Option ℚ
deriving DecidableEq, Repr

/-- SM-2 constant `MINIMUM_EASE_FACTOR` (flashcard.js line 574). -/
def MINIMUM_EASE_FACTOR : ℚ := 1.3

/-- SM-2 constant `DEFAULT_EASE_FACTOR` (line 575). -/
def DEFAULT_EASE_FACTOR : ℚ := 2.5

/-- SM-2 constant `EASE_FACTOR_BONUS` (line 576). -/
def EASE_FACTOR_BONUS : ℚ := 0.15

/-- SM-2 constant `EASE_FACTOR_PENALTY` (line 577). -/
def EASE_FACTOR_PENALTY : ℚ := 0.2

/-- `DIFFICULTY_MULTIPLIERS` lookup (lines 580-585); an unknown key reads as
`undefined`, i.e. `none`. -/
def DIFFICULTY_MULTIPLIERS (d : String) : Option ℚ :=
  if d = "again" then some 0
  else if d = "hard" then some 0.8
  else if d = "good" then some 1.0
  else if d = "easy" then some 1.3
  else none

/-- `INITIAL_INTERVALS` lookup (lines 588-593); an unknown key reads as
`undefined`, i.e. `none`. -/
def INITIAL_INTERVALS (d : String) : Option ℚ :=
  if d = "again" then some (1/1440)
  else if d = "hard" then some (1/240)
  else if d = "good" then some (1/144)
  else if d = "easy" then some 4
  else none

/-- `updateEaseFactor(cardState, difficulty)` (lines 665-684).  The source
mutates its argument; the model returns the mutated record.  The `good` case
of the switch and an unknown difficulty both leave the ease factor unchanged
before the final two clamps. -/
def updateEaseFactor (cardState : CardState) (difficulty : String) : CardState :=
  let cardState :=
    if difficulty = "easy" then
      { cardState with easeFactor := jsAdd cardState.easeFactor (some EASE_FACTOR_BONUS) }
    else if difficulty = "hard" then
      { cardState with easeFactor := jsMax (some MINIMUM_EASE_FACTOR)
                         (jsSub cardState.easeFactor (some EASE_FACTOR_PENALTY)) }
    else cardState
  let cardState := { cardState with easeFactor := jsMax (some MINIMUM_EASE_FACTOR) cardState.easeFactor }
  { cardState with easeFactor := jsMin (some 3.0) cardState.easeFactor }

/-- `updateCardState(cardState, difficulty)` (lines 602-658), statement by
statement.  The source copies the argument (`const newState = {...cardState}`,
line 603) and every subsequent write targets the copy, so the result pairs the
caller's untouched argument with the outcome of the call.  `nowMs` is the
value `new Date()` reads from the clock at line 604.  The outcome is
`Except.error JsError.rangeError` when the due-date computation at lines
651-652 calls `toISOString` on an invalid date (NaN time value). -/
def updateCardStateRun (cardState : CardState) (difficulty : String) (nowMs : ℤ) :
    CardState × Except JsError CardState :=
  let newState := cardState
  let newState := { newState with totalReviews := some (jsFalsyOr newState.totalReviews 0 + 1) }
  let newState := { newState with lastReviewed := some (toISOString nowMs) }
  let newState :=
    if difficulty = "good" ∨ difficulty = "easy" then
      { newState with correctReviews := some (jsFalsyOr newState.correctReviews 0 + 1) }
    else newState
  let newState :=
    if difficulty = "again" then
      { newState with
          repetitions := some 0,
          interval := INITIAL_INTERVALS "again",
          easeFactor := jsMax (some MINIMUM_EASE_FACTOR)
            (jsSub newState.easeFactor (some EASE_FACTOR_PENALTY)) }
    else
      let newState := { newState with repetitions := some (jsFalsyOr newState.repetitions 0 + 1) }
      let newState :=
        if newState.repetitions = some (1 : ℚ) then
          { newState with interval := INITIAL_INTERVALS difficulty }
        else if newState.repetitions = some (2 : ℚ) then
          { newState with interval := some (
              if difficulty = "easy" then 4
              else if difficulty = "good" then 1
              else if difficulty = "hard" then 0.25 else 1) }
        else
          let newState := { newState with
              interval := jsMul (jsMul newState.interval newState.easeFactor)
                            (DIFFICULTY_MULTIPLIERS difficulty) }
          if difficulty = "hard" then
            { newState with interval := jsMax newState.interval (jsMul newState.interval (some 0.8)) }
          else newState
      updateEaseFactor newState difficulty
  let result : Except JsError CardState :=
    match jsAdd (some (nowMs : ℚ)) (jsMul newState.interval (some 86400000)) with
    | none => Except.error JsError.rangeError
    | some dueMs =>
        Except.ok { newState with
          dueDate := msToDateString (jsTrunc dueMs),
          interval := jsRound2 newState.interval }
  (cardState, result)

/-- The value returned (or error thrown) by `updateCardState`. -/
def updateCardState (cardState : CardState) (difficulty : String) (nowMs : ℤ) :
    Except JsError CardState :=
  (updateCardStateRun cardState difficulty nowMs).2

/-- The preview intervals computed by `calculateIntervals` (lines 692-701). -/
structure Intervals where
  again : Option ℚ
  hard : Option ℚ
  good : Option ℚ
  easy : Option ℚ
deriving DecidableEq, Repr

/-- `calculateIntervals(cardState)` (lines 692-701): runs `updateCardState` on
the same `cardState` once per difficulty and collects the resulting intervals;
an exception from any of the four calls propagates. -/
def calculateIntervals (cardState : CardState) (nowMs : ℤ) : Except JsError Intervals := do
  let sAgain ← updateCardState cardState "again" nowMs
  let sHard ← updateCardState cardState "hard" nowMs
  let sGood ← updateCardState cardState "good" nowMs
  let sEasy ← updateCardState cardState "easy" nowMs
  pure ⟨sAgain.interval, sHard.interval, sGood.interval, sEasy.interval⟩

/-- A card as handled by the queue logic: an identity plus its state. -/
structure Card where
  id : String
  state : CardState
deriving DecidableEq, Repr

/-- `getDaysOverdue(cardState, today)` (lines 753-757): both date strings are
parsed to UTC midnights, so the division by 86400000 is exact and the
`Math.floor` is the plain difference in days.  An unparseable date gives NaN
(`none`). -/
def getDaysOverdue (cardState : CardState) (today : String) : Option ℤ :=
  match parseDate cardState.dueDate, parseDate today with
  | some d, some t => some (t - d)
  | _, _ => none

/-- The effective ease used by the priority comparator:
`a.state.easeFactor || DEFAULT_EASE_FACTOR` (lines 740-741). -/
def effEase (c : Card) : ℚ := jsFalsyOr c.state.easeFactor DEFAULT_EASE_FACTOR

/-- The comparator of `sortCardsByPriority` (lines 730-744) as a number:
`bDaysOverdue - aDaysOverdue` when the overdue counts differ, otherwise
`aEase - bEase`.  The result is NaN (`none`) when a due date is unparseable. -/
def cardCmp (today : String) (a b : Card) : Option ℚ :=
  match getDaysOverdue a.state today, getDaysOverdue b.state today with
  | some da, some db =>
      if da ≠ db then some ((db : ℚ) - (da : ℚ)) else some (effEase a - effEase b)
  | _, _ => none

/-- The total preorder a stable comparator sort realises: `a` may precede `b`
when the comparator does not force `b` first (`cardCmp a b ≤ 0`).  When the
comparator produces NaN the engine's behaviour is unspecified; that case
(`none`) is modelled as `false` and is excluded by the hypotheses of the
theorems below. -/
def cardsLeB (today : String) (a b : Card) : Bool :=
  match cardCmp today a b with
  | some q => decide (q ≤ 0)
  | none => false

/-- Propositional form of `cardsLeB`. -/
def cardsLe (today : String) (a b : Card) : Prop := cardsLeB today a b = true

instance (today : String) : DecidableRel (cardsLe today) := fun _ _ =>
  inferInstanceAs (Decidable (_ = true))

/-- `sortCardsByPriority(cards)` (lines 727-745).  `Array.prototype.sort` is
stable (ES2019), and for a consistent comparator every stable sort produces
the same list, so insertion sort with the comparator's preorder is the
engine's result.  `today` is the `toISOString` date the source reads from the
clock at line 728. -/
def sortCardsByPriority (today : String) (cards : List Card) : List Card :=
  List.insertionSort (cardsLe today) cards

/-- JS `arr.slice(0, n)`: a negative end index counts from the end of the
array. -/
def jsSlice (l : List α) (n : ℤ) : List α :=
  if 0 ≤ n then l.take n.toNat else l.take (l.length - (-n).toNat)

/-- Overdue filter of `calculateOptimalSession` (line 872):
`getDaysOverdue(card.state, today) > 0` (false for NaN). -/
def isOverdueCard (today : String) (c : Card) : Bool :=
  match getDaysOverdue c.state today with
  | some d => decide (0 < d)
  | none => false

/-- New-card filter of `calculateOptimalSession` (line 873):
`(card.state.repetitions || 0) === 0`. -/
def isNewCard (c : Card) : Bool := decide (jsFalsyOr c.state.repetitions 0 = 0)

/-- Review-card filter of `calculateOptimalSession` (lines 874-876):
`(repetitions || 0) > 0 && getDaysOverdue(...) <= 0` (false for NaN). -/
def isReviewCard (today : String) (c : Card) : Bool :=
  decide (0 < jsFalsyOr c.state.repetitions 0) &&
    (match getDaysOverdue c.state today with
     | some d => decide (d ≤ 0)
     | none => false)

/-- Result record of `calculateOptimalSession` (lines 893-902). -/
structure SessionResult where
  recommendedCards : List Card
  totalCards : ℕ
  estimatedTime : ℚ
  breakdownOverdue : ℤ
  breakdownNew : ℤ
  breakdownReview : ℤ
deriving DecidableEq, Repr

/-- `calculateOptimalSession(dueCards, availableMinutes, avgTimePerCard)`
(lines 866-903).  `today` is the clock reading of line 871.  The model assumes
`avgTimePerCard ≠ 0` callers (rational division by zero yields 0 where JS
yields Infinity); the theorems below hypothesise `0 < avgTimePerCard`. -/
def calculateOptimalSession (today : String) (dueCards : List Card)
    (availableMinutes avgTimePerCard : ℚ) : SessionResult :=
  let availableSeconds := availableMinutes * 60
  let maxCards : ℤ := jsFloor (availableSeconds / avgTimePerCard)
  let overdueCards := dueCards.filter (isOverdueCard today)
  let newCards := dueCards.filter isNewCard
  let reviewCards := dueCards.filter (isReviewCard today)
  let maxOverdue : ℤ := jsFloor ((maxCards : ℚ) * 0.5)
  let sessionCards := jsSlice overdueCards maxOverdue
  let remainingSpace : ℤ := maxCards - sessionCards.length
  let maxNew : ℤ := jsFloor ((remainingSpace : ℚ) * 0.3)
  let sessionCards := sessionCards ++ jsSlice newCards maxNew
  let finalRemainingSpace : ℤ := maxCards - sessionCards.length
  let sessionCards := sessionCards ++ jsSlice reviewCards finalRemainingSpace
  { recommendedCards := sessionCards
    totalCards := sessionCards.length
    estimatedTime := jsRound ((sessionCards.length : ℚ) * avgTimePerCard / 60)
    breakdownOverdue := min (overdueCards.length : ℤ) maxOverdue
    breakdownNew := min (newCards.length : ℤ) maxNew
    breakdownReview := min (reviewCards.length : ℤ) finalRemainingSpace }

end Anki

namespace Anki

/-! ## Helper lemmas -/

lemma ratFloor_eq (q : ℚ) : q.floor = ⌊q⌋ :=
  le_antisymm (Int.le_floor.mpr (Rat.le_floor.mp le_rfl)) (Rat.le_floor.mpr (Int.floor_le q))

lemma jsFloor_eq (q : ℚ) : jsFloor q = ⌊q⌋ := ratFloor_eq q

lemma round2_nonneg {q : ℚ} (h : 0 ≤ q) : 0 ≤ round2 q := by
  have h1 : (0 : ℤ) ≤ ⌊q * 100 + 1/2⌋ := Int.floor_nonneg.mpr (by linarith)
  have h2 : (0 : ℚ) ≤ jsRound (q * 100) := by
    unfold jsRound
    rw [jsFloor_eq]
    exact_mod_cast h1
  unfold round2
  positivity

/-- Evaluation of `updateCardState` on the `again` rating: repetitions reset,
interval set to the again preset, ease penalised and floored at the minimum
(but not capped), due date from the unrounded preset. -/
lemma updateCardState_again_eq (s : CardState) (n : ℤ) :
    updateCardState s "again" n = Except.ok
      { interval := some (round2 (1/1440)),
        easeFactor := jsMax (some MINIMUM_EASE_FACTOR)
                        (jsSub s.easeFactor (some EASE_FACTOR_PENALTY)),
        repetitions := some 0,
        dueDate := msToDateString (jsTrunc ((n : ℚ) + 1/1440 * 86400000)),
        createdAt := s.createdAt,
        lastReviewed := some (toISOString n),
        totalReviews := some (jsFalsyOr s.totalReviews 0 + 1),
        correctReviews := s.correctReviews } := by
  simp [updateCardState, updateCardStateRun, INITIAL_INTERVALS, jsMul, jsAdd, jsRound2]

/-- Evaluation of `updateCardState` on the `hard` rating, for a state whose
interval and ease factor are present. -/
lemma updateCardState_hard_eq (s : CardState) (n : ℤ) (i e : ℚ)
    (hi : s.interval = some i) (he : s.easeFactor = some e) :
    updateCardState s "hard" n = Except.ok
      { interval := some (round2 (if jsFalsyOr s.repetitions 0 = 0 then 1/240
          else if jsFalsyOr s.repetitions 0 + 1 = 2 then 1/4
          else (i * e * 0.8) ⊔ (i * e * 0.8 * 0.8))),
        easeFactor := some (3 ⊓ (1.3 ⊔ (1.3 ⊔ (e - 0.2)))),
        repetitions := some (jsFalsyOr s.repetitions 0 + 1),
        dueDate := msToDateString (jsTrunc ((n : ℚ) +
          (if jsFalsyOr s.repetitions 0 = 0 then 1/240
            else if jsFalsyOr s.repetitions 0 + 1 = 2 then 1/4
            else (i * e * 0.8) ⊔ (i * e * 0.8 * 0.8)) * 86400000)),
        createdAt := s.createdAt,
        lastReviewed := some (toISOString n),
        totalReviews := some (jsFalsyOr s.totalReviews 0 + 1),
        correctReviews := s.correctReviews } := by
  simp [updateCardState, updateCardStateRun, updateEaseFactor, INITIAL_INTERVALS,
    DIFFICULTY_MULTIPLIERS, jsMax, jsMin, jsSub, jsMul, jsAdd, jsRound2, he, hi]
  split_ifs <;> norm_num [MINIMUM_EASE_FACTOR, EASE_FACTOR_PENALTY]

/-- Evaluation of `updateCardState` on the `good` rating, for a state whose
interval and ease factor are present. -/
lemma updateCardState_good_eq (s : CardState) (n : ℤ) (i e : ℚ)
    (hi : s.interval = some i) (he : s.easeFactor = some e) :
    updateCardState s "good" n = Except.ok
      { interval := some (round2 (if jsFalsyOr s.repetitions 0 = 0 then 1/144
          else if jsFalsyOr s.repetitions 0 + 1 = 2 then 1 else i * e * 1.0)),
        easeFactor := some (3 ⊓ (1.3 ⊔ e)),
        repetitions := some (jsFalsyOr s.repetitions 0 + 1),
        dueDate := msToDateString (jsTrunc ((n : ℚ) +
          (if jsFalsyOr s.repetitions 0 = 0 then 1/144
            else if jsFalsyOr s.repetitions 0 + 1 = 2 then 1 else i * e * 1.0) * 86400000)),
        createdAt := s.createdAt,
        lastReviewed := some (toISOString n),
        totalReviews := some (jsFalsyOr s.totalReviews 0 + 1),
        correctReviews := some (jsFalsyOr s.correctReviews 0 + 1) } := by
  simp [updateCardState, updateCardStateRun, updateEaseFactor, INITIAL_INTERVALS,
    DIFFICULTY_MULTIPLIERS, jsMax, jsMin, jsSub, jsMul, jsAdd, jsRound2, he, hi]
  split_ifs <;> norm_num [MINIMUM_EASE_FACTOR]

/-- Evaluation of `updateCardState` on the `easy` rating, for a state whose
interval and ease factor are present. -/
lemma updateCardState_easy_eq (s : CardState) (n : ℤ) (i e : ℚ)
    (hi : s.interval = some i) (he : s.easeFactor = some e) :
    updateCardState s "easy" n = Except.ok
      { interval := some (round2 (if jsFalsyOr s.repetitions 0 = 0 then 4
          else if jsFalsyOr s.repetitions 0 + 1 = 2 then 4 else i * e * 1.3)),
        easeFactor := some (3 ⊓ (1.3 ⊔ (e + 0.15))),
        repetitions := some (jsFalsyOr s.repetitions 0 + 1),
        dueDate := msToDateString (jsTrunc ((n : ℚ) +
          (if jsFalsyOr s.repetitions 0 = 0 then 4
            else if jsFalsyOr s.repetitions 0 + 1 = 2 then 4 else i * e * 1.3) * 86400000)),
        createdAt := s.createdAt,
        lastReviewed := some (toISOString n),
        totalReviews := some (jsFalsyOr s.totalReviews 0 + 1),
        correctReviews := some (jsFalsyOr s.correctReviews 0 + 1) } := by
  simp [updateCardState, updateCardStateRun, updateEaseFactor, INITIAL_INTERVALS,
    DIFFICULTY_MULTIPLIERS, jsMax, jsMin, jsSub, jsMul, jsAdd, jsRound2, he, hi]
  split_ifs <;> norm_num [MINIMUM_EASE_FACTOR, EASE_FACTOR_BONUS]

end Anki

namespace Anki

instance {ε α : Type} [DecidableEq ε] [DecidableEq α] : DecidableEq (Except ε α) := fun a b =>
  match a, b with
  | Except.ok x, Except.ok y =>
      if h : x = y then isTrue (by rw [h]) else isFalse (by intro hc; cases hc; exact h rfl)
  | Except.error x, Except.error y =>
      if h : x = y then isTrue (by rw [h]) else isFalse (by intro hc; cases hc; exact h rfl)
  | Except.ok _, Except.error _ => isFalse (by intro hc; cases hc)
  | Except.error _, Except.ok _ => isFalse (by intro hc; cases hc)

/-! ## Concrete states used in evaluations -/

/-- Midnight UTC on 2024-01-01, in milliseconds since the epoch. -/
def t2024 : ℤ := 1704067200000

/-- The new-card scenario state of the specification:
`{interval: 1, easeFactor: 2.5, repetitions: 0, dueDate: "2024-01-01"}`. -/
def cardNew2024 : CardState :=
  { interval := some 1, easeFactor := some 2.5, repetitions := some 0,
    dueDate := "2024-01-01", createdAt := some "2024-01-01T00:00:00.000Z",
    lastReviewed := none, totalReviews := some 0, correctReviews := some 0 }

/-- A mature stored state (interval 10 days, five repetitions). -/
def cardMature : CardState :=
  { interval := some 10, easeFactor := some 2.5, repetitions := some 5,
    dueDate := "2024-01-01", createdAt := some "2023-12-01T00:00:00.000Z",
    lastReviewed := none, totalReviews := some 5, correctReviews := some 4 }

/-- A state whose ease factor is above the documented 3.0 cap. -/
def cardHighEase : CardState :=
  { cardNew2024 with easeFactor := some 3.5 }

/-- A state with one prior repetition (the silent-defaulting path for an
unknown rating). -/
def cardRep1 : CardState :=
  { cardNew2024 with repetitions := some 1, interval := some 0.5 }

/-- A state whose `easeFactor` field is absent. -/
def cardNoEase : CardState :=
  { cardNew2024 with easeFactor := none }

/-- The mature scenario of the specification:
`{repetitions: 3, interval: 10, easeFactor: 2.0}`. -/
def cardScenMature : CardState :=
  { interval := some 10, easeFactor := some 2, repetitions := some 3,
    dueDate := "2024-01-01", createdAt := some "2023-12-01T00:00:00.000Z",
    lastReviewed := none, totalReviews := some 3, correctReviews := some 3 }

/-- A malformed mature state with ease factor 0, below 1. -/
def cardZeroEase : CardState :=
  { cardScenMature with easeFactor := some 0 }

/-! ## Claims about the Scheduler -/

/-- Claim C1 (counterexample): rating `again` stores
`interval = round2 (1/1440) = 0`, so the stored interval is not `> 0`. -/
theorem updateCardState_again_interval_zero :
    (updateCardState cardMature "again" 0).map CardState.interval = Except.ok (some 0) ∧
    ¬ (0 : ℚ) < 0 := by
  constructor
  · rw [updateCardState_again_eq]
    simp only [Except.map]
    norm_num [round2, jsRound, jsFloor_eq]
  · exact lt_irrefl 0

/-- Claim C1 (amended): for every valid rating and every state with present,
nonnegative interval and ease factor, the update succeeds and stores exactly
`round2` of the computed interval, which is nonnegative (it is `0` whenever
the computed interval is below 0.005, e.g. the `again` preset `1/1440`); the
computed interval is the `again` preset, the first-success preset, the fixed
second step, or `previous * ease * multiplier` according to the phase. -/
theorem updateCardState_interval_round2_nonneg (s : CardState) (n : ℤ) (r : String) (i e : ℚ)
    (hr : r = "again" ∨ r = "hard" ∨ r = "good" ∨ r = "easy")
    (hi : s.interval = some i) (hi0 : 0 ≤ i) (he : s.easeFactor = some e) (he0 : 0 ≤ e) :
    ∃ s' i0, updateCardState s r n = Except.ok s' ∧ s'.interval = some (round2 i0) ∧
      0 ≤ i0 ∧ 0 ≤ round2 i0 ∧
      (r = "again" → i0 = 1/1440) ∧
      (r ≠ "again" → jsFalsyOr s.repetitions 0 = 0 → INITIAL_INTERVALS r = some i0) ∧
      (r ≠ "again" → jsFalsyOr s.repetitions 0 ≠ 0 → jsFalsyOr s.repetitions 0 + 1 = 2 →
        i0 = (if r = "easy" then 4 else if r = "good" then 1 else 1/4)) ∧
      (r ≠ "again" → jsFalsyOr s.repetitions 0 ≠ 0 → jsFalsyOr s.repetitions 0 + 1 ≠ 2 →
        ∃ m, DIFFICULTY_MULTIPLIERS r = some m ∧ i0 = i * e * m) := by
  have hrnd : ∀ q : ℚ, 0 ≤ q → 0 ≤ round2 q := fun q hq => round2_nonneg hq
  rcases hr with rfl | rfl | rfl | rfl
  · rw [updateCardState_again_eq]
    exact ⟨_, 1/1440, rfl, rfl, by norm_num, hrnd _ (by norm_num), fun _ => rfl,
      fun h => absurd rfl h, fun h => absurd rfl h, fun h => absurd rfl h⟩
  · rw [updateCardState_hard_eq s n i e hi he]
    by_cases h0 : jsFalsyOr s.repetitions 0 = 0
    · simp only [h0, if_pos rfl]
      exact ⟨_, 1/240, rfl, rfl, by norm_num, hrnd _ (by norm_num),
        fun h => absurd h (by decide), fun _ _ => by simp [INITIAL_INTERVALS],
        fun _ hne _ => absurd rfl hne, fun _ hne _ => absurd rfl hne⟩
    · by_cases h2 : jsFalsyOr s.repetitions 0 + 1 = 2
      · simp only [if_neg h0, if_pos h2]
        exact ⟨_, 1/4, rfl, rfl, by norm_num, hrnd _ (by norm_num),
          fun h => absurd h (by decide), fun _ h => absurd h h0,
          fun _ _ _ => by simp, fun _ _ hne => absurd h2 hne⟩
      · simp only [if_neg h0, if_neg h2]
        have hm0 : (0:ℚ) ≤ i * e * 0.8 := by positivity
        have hmax : (i * e * 0.8) ⊔ (i * e * 0.8 * 0.8) = i * e * 0.8 :=
          sup_eq_left.mpr (by nlinarith)
        rw [hmax]
        exact ⟨_, i * e * 0.8, rfl, rfl, hm0, hrnd _ hm0,
          fun h => absurd h (by decide), fun _ h => absurd h h0,
          fun _ _ h => absurd h h2,
          fun _ _ _ => ⟨0.8, by simp [DIFFICULTY_MULTIPLIERS], rfl⟩⟩
  · rw [updateCardState_good_eq s n i e hi he]
    by_cases h0 : jsFalsyOr s.repetitions 0 = 0
    · simp only [h0, if_pos rfl]
      exact ⟨_, 1/144, rfl, rfl, by norm_num, hrnd _ (by norm_num),
        fun h => absurd h (by decide), fun _ _ => by simp [INITIAL_INTERVALS],
        fun _ hne _ => absurd rfl hne, fun _ hne _ => absurd rfl hne⟩
    · by_cases h2 : jsFalsyOr s.repetitions 0 + 1 = 2
      · simp only [if_neg h0, if_pos h2]
        exact ⟨_, 1, rfl, rfl, by norm_num, hrnd _ (by norm_num),
          fun h => absurd h (by decide), fun _ h => absurd h h0,
          fun _ _ _ => by simp, fun _ _ hne => absurd h2 hne⟩
      · simp only [if_neg h0, if_neg h2]
        have hm0 : (0:ℚ) ≤ i * e * 1.0 := by positivity
        exact ⟨_, i * e * 1.0, rfl, rfl, hm0, hrnd _ hm0,
          fun h => absurd h (by decide), fun _ h => absurd h h0,
          fun _ _ h => absurd h h2,
          fun _ _ _ => ⟨1.0, by simp [DIFFICULTY_MULTIPLIERS], rfl⟩⟩
  · rw [updateCardState_easy_eq s n i e hi he]
    by_cases h0 : jsFalsyOr s.repetitions 0 = 0
    · simp only [h0, if_pos rfl]
      exact ⟨_, 4, rfl, rfl, by norm_num, hrnd _ (by norm_num),
        fun h => absurd h (by decide), fun _ _ => by simp [INITIAL_INTERVALS],
        fun _ hne _ => absurd rfl hne, fun _ hne _ => absurd rfl hne⟩
    · by_cases h2 : jsFalsyOr s.repetitions 0 + 1 = 2
      · simp only [if_neg h0, if_pos h2]
        exact ⟨_, 4, rfl, rfl, by norm_num, hrnd _ (by norm_num),
          fun h => absurd h (by decide), fun _ h => absurd h h0,
          fun _ _ _ => by simp, fun _ _ hne => absurd h2 hne⟩
      · simp only [if_neg h0, if_neg h2]
        have hm0 : (0:ℚ) ≤ i * e * 1.3 := by positivity
        exact ⟨_, i * e * 1.3, rfl, rfl, hm0, hrnd _ hm0,
          fun h => absurd h (by decide), fun _ h => absurd h h0,
          fun _ _ h => absurd h h2,
          fun _ _ _ => ⟨1.3, by simp [DIFFICULTY_MULTIPLIERS], rfl⟩⟩

/-- Claim C1 witness: the amended claim at the specification's new-card
scenario rated `good`. -/
theorem updateCardState_interval_round2_nonneg_witness :
    ∃ s' i0, updateCardState cardNew2024 "good" t2024 = Except.ok s' ∧
      s'.interval = some (round2 i0) ∧ 0 ≤ i0 ∧ 0 ≤ round2 i0 ∧
      ("good" = "again" → i0 = 1/1440) ∧
      ("good" ≠ "again" → jsFalsyOr cardNew2024.repetitions 0 = 0 →
        INITIAL_INTERVALS "good" = some i0) ∧
      ("good" ≠ "again" → jsFalsyOr cardNew2024.repetitions 0 ≠ 0 →
        jsFalsyOr cardNew2024.repetitions 0 + 1 = 2 →
        i0 = (if "good" = "easy" then 4 else if "good" = "good" then 1 else 1/4)) ∧
      ("good" ≠ "again" → jsFalsyOr cardNew2024.repetitions 0 ≠ 0 →
        jsFalsyOr cardNew2024.repetitions 0 + 1 ≠ 2 →
        ∃ m, DIFFICULTY_MULTIPLIERS "good" = some m ∧ i0 = 1 * 2.5 * m) :=
  updateCardState_interval_round2_nonneg cardNew2024 t2024 "good" 1 2.5
    (Or.inr (Or.inr (Or.inl rfl))) rfl (by norm_num) rfl (by norm_num)

end Anki

namespace Anki

/-- Claim C2 (counterexample): on the `again` path only the lower clamp is
applied, so an input ease factor of 3.5 leaves the update with ease factor
3.3, above the 3.0 cap; the `[1.3, 3.0]` clamp of `updateEaseFactor` is not
reached from the `again` branch. -/
theorem updateCardState_again_ease_uncapped :
    (updateCardState cardHighEase "again" 0).map CardState.easeFactor =
      Except.ok (some 3.3) ∧ ¬ ((3.3 : ℚ) ≤ 3) := by
  constructor
  · rw [updateCardState_again_eq]
    simp only [Except.map, cardHighEase, cardNew2024, jsMax, jsSub]
    norm_num [MINIMUM_EASE_FACTOR, EASE_FACTOR_PENALTY]
  · norm_num

/-- Claim C2 (amended): for every valid rating and every input state whose
ease factor is present and at most 3.0 (the documented invariant), the
resulting ease factor lies in `[MINIMUM_EASE_FACTOR, 3.0]`; the full clamp is
applied on the `hard`/`good`/`easy` paths, while the `again` path applies
only the lower clamp (subtracting the penalty preserves the cap whenever the
input respects it). -/
theorem updateCardState_ease_bounds (s : CardState) (n : ℤ) (r : String) (i e : ℚ)
    (hr : r = "again" ∨ r = "hard" ∨ r = "good" ∨ r = "easy")
    (hi : s.interval = some i) (he : s.easeFactor = some e) (he3 : e ≤ 3) :
    ∃ s' e', updateCardState s r n = Except.ok s' ∧ s'.easeFactor = some e' ∧
      MINIMUM_EASE_FACTOR ≤ e' ∧ e' ≤ 3 := by
  rcases hr with rfl | rfl | rfl | rfl
  · rw [updateCardState_again_eq, he]
    refine ⟨_, MINIMUM_EASE_FACTOR ⊔ (e - EASE_FACTOR_PENALTY), rfl,
      by simp [jsMax, jsSub], le_sup_left, ?_⟩
    refine sup_le (by norm_num [MINIMUM_EASE_FACTOR]) ?_
    norm_num [EASE_FACTOR_PENALTY]
    linarith
  · rw [updateCardState_hard_eq s n i e hi he]
    exact ⟨_, _, rfl, rfl, le_inf (by norm_num [MINIMUM_EASE_FACTOR]) le_sup_left,
      inf_le_left⟩
  · rw [updateCardState_good_eq s n i e hi he]
    exact ⟨_, _, rfl, rfl, le_inf (by norm_num [MINIMUM_EASE_FACTOR]) le_sup_left,
      inf_le_left⟩
  · rw [updateCardState_easy_eq s n i e hi he]
    exact ⟨_, _, rfl, rfl, le_inf (by norm_num [MINIMUM_EASE_FACTOR]) le_sup_left,
      inf_le_left⟩

/-- Claim C2 witness: the amended bounds at the new-card scenario rated
`again`. -/
theorem updateCardState_ease_bounds_witness :
    ∃ s' e', updateCardState cardNew2024 "again" t2024 = Except.ok s' ∧
      s'.easeFactor = some e' ∧ MINIMUM_EASE_FACTOR ≤ e' ∧ e' ≤ 3 :=
  updateCardState_ease_bounds cardNew2024 t2024 "again" 1 2.5 (Or.inl rfl) rfl rfl
    (by norm_num)

end Anki

namespace Anki

/-- Evaluation of `updateCardState` on a rating outside the four known ones,
for a state with a present ease factor: when the incremented repetition count
is exactly 2 the second-step ternary falls through to interval `1` and the
call succeeds silently; otherwise the preset or multiplier lookup is
`undefined` and the due-date computation throws a `RangeError`. -/
lemma updateCardState_unknown_eq (s : CardState) (n : ℤ) (r : String) (e : ℚ)
    (h1 : r ≠ "again") (h2 : r ≠ "hard") (h3 : r ≠ "good") (h4 : r ≠ "easy")
    (he : s.easeFactor = some e) :
    updateCardState s r n = if jsFalsyOr s.repetitions 0 + 1 = 2 then Except.ok
      { interval := some (round2 1),
        easeFactor := some (3 ⊓ (1.3 ⊔ e)),
        repetitions := some (jsFalsyOr s.repetitions 0 + 1),
        dueDate := msToDateString (jsTrunc ((n : ℚ) + 1 * 86400000)),
        createdAt := s.createdAt,
        lastReviewed := some (toISOString n),
        totalReviews := some (jsFalsyOr s.totalReviews 0 + 1),
        correctReviews := s.correctReviews }
    else Except.error JsError.rangeError := by
  simp [updateCardState, updateCardStateRun, updateEaseFactor, INITIAL_INTERVALS,
    DIFFICULTY_MULTIPLIERS, jsMax, jsMin, jsSub, jsMul, jsAdd, jsRound2, he,
    h1, h2, h3, h4]
  split_ifs with hA hB
  · exfalso; rw [hA] at hB; norm_num at hB
  all_goals norm_num [MINIMUM_EASE_FACTOR]

/-- Evaluation of `updateCardState` on `good` for a never-repeated state whose
`easeFactor` is absent: the `undefined` ease propagates through the clamps as
NaN. -/
lemma updateCardState_good_noease_eq (s : CardState) (n : ℤ)
    (hne : s.easeFactor = none) (h0 : s.repetitions = some 0) :
    updateCardState s "good" n = Except.ok
      { interval := some (round2 (1/144)),
        easeFactor := none,
        repetitions := some 1,
        dueDate := msToDateString (jsTrunc ((n : ℚ) + 1/144 * 86400000)),
        createdAt := s.createdAt,
        lastReviewed := some (toISOString n),
        totalReviews := some (jsFalsyOr s.totalReviews 0 + 1),
        correctReviews := some (jsFalsyOr s.correctReviews 0 + 1) } := by
  simp [updateCardState, updateCardStateRun, updateEaseFactor, INITIAL_INTERVALS,
    DIFFICULTY_MULTIPLIERS, jsMax, jsMin, jsSub, jsMul, jsAdd, jsRound2, jsFalsyOr,
    hne, h0]

/-- Claim C3: an unknown rating is not rejected by a validation step.  With
one prior repetition the update silently returns a state with interval `1`
(the fall-through arm of the second-step ternary) and no error; with zero
prior repetitions the preset lookup yields `undefined` and the call aborts
with a `RangeError` from `toISOString` on an invalid date, not with an
`InvalidRating` condition. -/
theorem updateCardState_invalid_rating_behavior :
    (updateCardState cardRep1 "banana" 0).map CardState.interval = Except.ok (some 1) ∧
    updateCardState cardNew2024 "banana" 0 = Except.error JsError.rangeError := by
  constructor
  · rw [updateCardState_unknown_eq cardRep1 0 "banana" 2.5
      (by decide) (by decide) (by decide) (by decide) rfl]
    have hc : jsFalsyOr cardRep1.repetitions 0 + 1 = 2 := by
      norm_num [cardRep1, cardNew2024, jsFalsyOr]
    rw [if_pos hc]
    simp only [Except.map]
    norm_num [round2, jsRound, jsFloor_eq]
  · rw [updateCardState_unknown_eq cardNew2024 0 "banana" 2.5
      (by decide) (by decide) (by decide) (by decide) rfl]
    have hc : ¬ jsFalsyOr cardNew2024.repetitions 0 + 1 = 2 := by
      norm_num [cardNew2024, jsFalsyOr]
    rw [if_neg hc]

/-- Claim C4: a state with an absent `easeFactor` is not defaulted to 2.5;
the `undefined` propagates through the arithmetic and clamps as NaN, so the
returned ease factor is NaN (`none`), not `DEFAULT_EASE_FACTOR`. -/
theorem updateCardState_missing_ease_nan :
    (updateCardState cardNoEase "good" 0).map CardState.easeFactor = Except.ok none ∧
    (none : Option ℚ) ≠ some DEFAULT_EASE_FACTOR := by
  constructor
  · rw [updateCardState_good_noease_eq cardNoEase 0 rfl rfl]
    rfl
  · simp

/-- Claim C5: the output of `updateCardState` depends on the clock reading
taken inside the function (`new Date()`, flashcard.js line 604): the same
state and rating at two different clock instants produce different results
(already the stored `lastReviewed` differs), while the computation is a pure
function of `(state, rating, clock reading)`. -/
theorem updateCardState_clock_dependence :
    (updateCardState cardNew2024 "good" t2024).map CardState.lastReviewed =
      Except.ok (some "2024-01-01T00:00:00.000Z") ∧
    (updateCardState cardNew2024 "good" (t2024 + 86400000)).map CardState.lastReviewed =
      Except.ok (some "2024-01-02T00:00:00.000Z") ∧
    updateCardState cardNew2024 "good" t2024 ≠
      updateCardState cardNew2024 "good" (t2024 + 86400000) := by
  have h1 : (updateCardState cardNew2024 "good" t2024).map CardState.lastReviewed =
      Except.ok (some "2024-01-01T00:00:00.000Z") := by
    rw [updateCardState_good_eq cardNew2024 t2024 1 2.5 rfl rfl]
    decide
  have h2 : (updateCardState cardNew2024 "good" (t2024 + 86400000)).map
      CardState.lastReviewed = Except.ok (some "2024-01-02T00:00:00.000Z") := by
    rw [updateCardState_good_eq cardNew2024 (t2024 + 86400000) 1 2.5 rfl rfl]
    decide
  refine ⟨h1, h2, fun heq => ?_⟩
  rw [heq] at h1
  exact absurd (h1.symm.trans h2) (by decide)

/-- Claim C6 (counterexample): in the new-card scenario rated `good` the
stored interval is `0.01` (the computed `1/144` rounded to two decimals), not
`1/144`. -/
theorem updateCardState_good_scenario_interval_rounded :
    (updateCardState cardNew2024 "good" t2024).map CardState.interval =
      Except.ok (some 0.01) ∧ (0.01 : ℚ) ≠ 1/144 := by
  constructor
  · rw [updateCardState_good_eq cardNew2024 t2024 1 2.5 rfl rfl]
    simp only [Except.map]
    norm_num [cardNew2024, jsFalsyOr, round2, jsRound, jsFloor_eq]
  · norm_num

/-- Claim C6 (amended): the new-card scenario
`{interval: 1, easeFactor: 2.5, repetitions: 0, dueDate: "2024-01-01"}` rated
`good` at midnight UTC of 2024-01-01 yields repetitions 1, stored interval
`0.01` (= `1/144` rounded to two decimals; the due date is computed from the
unrounded `1/144`), due date `"2024-01-01"` (ten minutes later, same day) and
ease factor 2.5 unchanged. -/
theorem updateCardState_good_scenario :
    updateCardState cardNew2024 "good" t2024 = Except.ok
      { interval := some 0.01, easeFactor := some 2.5, repetitions := some 1,
        dueDate := "2024-01-01", createdAt := some "2024-01-01T00:00:00.000Z",
        lastReviewed := some "2024-01-01T00:00:00.000Z",
        totalReviews := some 1, correctReviews := some 1 } := by
  rw [updateCardState_good_eq cardNew2024 t2024 1 2.5 rfl rfl]
  have h1 : jsFalsyOr cardNew2024.repetitions 0 = 0 := by
    norm_num [cardNew2024, jsFalsyOr]
  simp only [h1, if_pos rfl, cardNew2024]
  norm_num [round2, jsRound, jsFloor_eq, jsFalsyOr, jsTrunc, t2024]
  exact ⟨by decide, by decide⟩

end Anki

namespace Anki

/-- Claim C7 (counterexample): the `hard` guard compares the freshly
multiplied interval with 80% of itself (`Math.max(x, 0.8*x)`), not with 80%
of the pre-update interval.  For a malformed mature state with ease factor 0
and interval 10 the stored interval is `0`, strictly below the 80% floor (8)
the claim asserts. -/
theorem updateCardState_hard_floor_self_referential :
    (updateCardState cardZeroEase "hard" 0).map CardState.interval = Except.ok (some 0) ∧
    ¬ ((0.8 : ℚ) * 10 ≤ 0) := by
  constructor
  · rw [updateCardState_hard_eq cardZeroEase 0 10 0 rfl rfl]
    have h0 : jsFalsyOr cardZeroEase.repetitions 0 = 3 := by
      norm_num [cardZeroEase, cardScenMature, jsFalsyOr]
    simp only [Except.map, h0]
    norm_num [round2, jsRound, jsFloor_eq]
  · norm_num

/-- Claim C7 (amended): in the mature phase (incremented repetitions at least
3) a successful rating multiplies the previous interval by the ease factor
and the rating's multiplier (Hard 0.8, Good 1.0, Easy 1.3); the `hard` guard
`Math.max(interval, interval * 0.8)` is a no-op for the nonnegative values
produced, so the stored interval is exactly `round2 (previous * ease *
multiplier)`; rating `good` leaves an in-range ease factor unchanged. -/
theorem updateCardState_mature_formula (s : CardState) (n : ℤ) (r : String) (i e rp : ℚ)
    (hr : r = "hard" ∨ r = "good" ∨ r = "easy")
    (hrp : s.repetitions = some rp) (hrp0 : rp ≠ 0) (hrp1 : rp ≠ 1)
    (hi : s.interval = some i) (hi0 : 0 ≤ i) (he : s.easeFactor = some e) (he0 : 0 ≤ e) :
    ∃ s' m, DIFFICULTY_MULTIPLIERS r = some m ∧
      updateCardState s r n = Except.ok s' ∧
      s'.interval = some (round2 (i * e * m)) ∧
      s'.repetitions = some (rp + 1) ∧
      (r = "good" → MINIMUM_EASE_FACTOR ≤ e → e ≤ 3 → s'.easeFactor = some e) := by
  have hf : jsFalsyOr s.repetitions 0 = rp := by
    simp [jsFalsyOr, hrp, hrp0]
  have h2' : ¬ (rp + 1 = 2) := fun h => hrp1 (by linarith)
  rcases hr with rfl | rfl | rfl
  · rw [updateCardState_hard_eq s n i e hi he]
    have hm0 : (0:ℚ) ≤ i * e * 0.8 := by positivity
    have hmax : (i * e * 0.8) ⊔ (i * e * 0.8 * 0.8) = i * e * 0.8 :=
      sup_eq_left.mpr (by nlinarith)
    simp only [hf, if_neg hrp0, if_neg h2', hmax]
    exact ⟨_, 0.8, by simp [DIFFICULTY_MULTIPLIERS], rfl, rfl, rfl,
      fun h => absurd h (by decide)⟩
  · rw [updateCardState_good_eq s n i e hi he]
    simp only [hf, if_neg hrp0, if_neg h2']
    refine ⟨_, 1.0, by simp [DIFFICULTY_MULTIPLIERS], rfl, rfl, rfl, fun _ h13 h3 => ?_⟩
    have hs : (1.3 : ℚ) ⊔ e = e := sup_eq_right.mpr (by norm_num [MINIMUM_EASE_FACTOR] at h13; linarith)
    have hi3 : (3 : ℚ) ⊓ e = e := inf_eq_right.mpr h3
    simp only [hs, hi3]
  · rw [updateCardState_easy_eq s n i e hi he]
    simp only [hf, if_neg hrp0, if_neg h2']
    exact ⟨_, 1.3, by simp [DIFFICULTY_MULTIPLIERS], rfl, rfl, rfl,
      fun h => absurd h (by decide)⟩

/-- Claim C7 witness: the specification's mature scenario
`{repetitions: 3, interval: 10, easeFactor: 2.0}` rated `good` gets stored
interval 20 with ease factor 2.0 unchanged. -/
theorem updateCardState_mature_formula_witness :
    ∃ s', updateCardState cardScenMature "good" t2024 = Except.ok s' ∧
      s'.interval = some 20 ∧ s'.easeFactor = some 2 ∧ s'.repetitions = some 4 := by
  obtain ⟨s', m, hm, hok, hint, hreps, hease⟩ :=
    updateCardState_mature_formula cardScenMature t2024 "good" 10 2 3
      (Or.inr (Or.inl rfl)) rfl (by norm_num) (by norm_num) rfl (by norm_num) rfl
      (by norm_num)
  have hm1 : m = 1.0 := by
    have : some (1.0 : ℚ) = some m := by
      rw [← hm]; simp [DIFFICULTY_MULTIPLIERS]
    exact (Option.some.injEq _ _ ▸ this).symm
  refine ⟨s', hok, ?_, hease rfl (by norm_num [MINIMUM_EASE_FACTOR]) (by norm_num), by
    rw [hreps]; norm_num⟩
  rw [hint, hm1]
  norm_num [round2, jsRound, jsFloor_eq]

end Anki

namespace Anki

/-- Claim C10: the update never writes to its argument — every statement of
the source targets the spread copy (`const newState = {...cardState}`), so
the caller's record, the first component of `updateCardStateRun`, is the
unchanged input, every field included; and `calculateIntervals` previews all
four ratings against the same input state, so each previewed interval equals
a fresh `updateCardState` of the original state. -/
theorem updateCardState_pure_frame (s : CardState) (n : ℤ) (i e : ℚ)
    (hi : s.interval = some i) (he : s.easeFactor = some e) :
    (∀ r : String, (updateCardStateRun s r n).1 = s) ∧
    ∃ sA sH sG sE, updateCardState s "again" n = Except.ok sA ∧
      updateCardState s "hard" n = Except.ok sH ∧
      updateCardState s "good" n = Except.ok sG ∧
      updateCardState s "easy" n = Except.ok sE ∧
      calculateIntervals s n =
        Except.ok ⟨sA.interval, sH.interval, sG.interval, sE.interval⟩ := by
  refine ⟨fun r => rfl, ?_⟩
  refine ⟨_, _, _, _, updateCardState_again_eq s n, updateCardState_hard_eq s n i e hi he,
    updateCardState_good_eq s n i e hi he, updateCardState_easy_eq s n i e hi he, ?_⟩
  rw [calculateIntervals, updateCardState_again_eq s n,
    updateCardState_hard_eq s n i e hi he, updateCardState_good_eq s n i e hi he,
    updateCardState_easy_eq s n i e hi he]
  rfl

/-- Claim C10 witness: the frame property at the new-card scenario state. -/
theorem updateCardState_pure_frame_witness :
    (∀ r : String, (updateCardStateRun cardNew2024 r t2024).1 = cardNew2024) ∧
    ∃ sA sH sG sE, updateCardState cardNew2024 "again" t2024 = Except.ok sA ∧
      updateCardState cardNew2024 "hard" t2024 = Except.ok sH ∧
      updateCardState cardNew2024 "good" t2024 = Except.ok sG ∧
      updateCardState cardNew2024 "easy" t2024 = Except.ok sE ∧
      calculateIntervals cardNew2024 t2024 =
        Except.ok ⟨sA.interval, sH.interval, sG.interval, sE.interval⟩ :=
  updateCardState_pure_frame cardNew2024 t2024 1 2.5 rfl rfl

end Anki

namespace Anki

/-! ## Claims about the Queue Builder -/

lemma cardsLe_iff (today : String) (a b : Card) (da db : ℤ)
    (ha : getDaysOverdue a.state today = some da)
    (hb : getDaysOverdue b.state today = some db) :
    cardsLe today a b ↔ (db < da ∨ (da = db ∧ effEase a ≤ effEase b)) := by
  unfold cardsLe cardsLeB cardCmp
  rw [ha, hb]
  dsimp only
  split_ifs with hd
  · simp only [decide_eq_true_eq, sub_nonpos, Int.cast_le]
    constructor
    · intro h
      exact Or.inl (lt_of_le_of_ne h (fun h' => hd h'.symm))
    · rintro (h | ⟨h, _⟩)
      · exact h.le
      · exact absurd h hd
  · have heq : da = db := not_not.mp hd
    subst heq
    simp [sub_nonpos]

lemma cardsLe_total_of (today : String) (a b : Card) (da db : ℤ)
    (ha : getDaysOverdue a.state today = some da)
    (hb : getDaysOverdue b.state today = some db) :
    cardsLe today a b ∨ cardsLe today b a := by
  rw [cardsLe_iff today a b da db ha hb, cardsLe_iff today b a db da hb ha]
  rcases lt_trichotomy da db with h | h | h
  · exact Or.inr (Or.inl h)
  · subst h
    rcases le_total (effEase a) (effEase b) with h | h
    · exact Or.inl (Or.inr ⟨rfl, h⟩)
    · exact Or.inr (Or.inr ⟨rfl, h⟩)
  · exact Or.inl (Or.inl h)

lemma cardsLe_trans_of (today : String) (a b c : Card) (da db dc : ℤ)
    (ha : getDaysOverdue a.state today = some da)
    (hb : getDaysOverdue b.state today = some db)
    (hc : getDaysOverdue c.state today = some dc) :
    cardsLe today a b → cardsLe today b c → cardsLe today a c := by
  rw [cardsLe_iff today a b da db ha hb, cardsLe_iff today b c db dc hb hc,
    cardsLe_iff today a c da dc ha hc]
  rintro (h1 | ⟨rfl, h1⟩) (h2 | ⟨rfl, h2⟩)
  · exact Or.inl (h2.trans h1)
  · exact Or.inl h1
  · exact Or.inl h2
  · exact Or.inr ⟨rfl, h1.trans h2⟩

lemma cardsLe_of_tied (today : String) (a b : Card) (d : ℤ)
    (ha : getDaysOverdue a.state today = some d)
    (hb : getDaysOverdue b.state today = some d)
    (he : effEase a = effEase b) :
    cardsLe today a b :=
  (cardsLe_iff today a b d d ha hb).mpr (Or.inr ⟨rfl, he.le⟩)

lemma sorted_orderedInsert_of {α : Type} (r : α → α → Prop) [DecidableRel r] (a : α)
    (l : List α) (h : List.Sorted r l)
    (htot : ∀ b ∈ l, r a b ∨ r b a)
    (htr : ∀ b ∈ l, ∀ c ∈ l, r a b → r b c → r a c) :
    List.Sorted r (List.orderedInsert r a l) := by
  induction l with
  | nil => exact List.sorted_singleton a
  | cons b l ih =>
    rw [List.orderedInsert]
    by_cases hab : r a b
    · rw [if_pos hab, List.sorted_cons]
      refine ⟨?_, h⟩
      intro c hc
      rcases List.mem_cons.mp hc with rfl | hcl
      · exact hab
      · exact htr b (List.mem_cons_self b l) c (List.mem_cons_of_mem _ hcl) hab
          ((List.sorted_cons.mp h).1 c hcl)
    · rw [if_neg hab, List.sorted_cons]
      constructor
      · intro c hc
        rcases (List.mem_orderedInsert r).mp hc with rfl | hcl
        · exact (htot b (List.mem_cons_self b l)).resolve_left hab
        · exact (List.sorted_cons.mp h).1 c hcl
      · exact ih (List.sorted_cons.mp h).2
          (fun x hx => htot x (List.mem_cons_of_mem _ hx))
          (fun x hx y hy => htr x (List.mem_cons_of_mem _ hx) y (List.mem_cons_of_mem _ hy))

lemma sorted_insertionSort_of {α : Type} (r : α → α → Prop) [DecidableRel r]
    (l : List α)
    (htot : ∀ a ∈ l, ∀ b ∈ l, r a b ∨ r b a)
    (htr : ∀ a ∈ l, ∀ b ∈ l, ∀ c ∈ l, r a b → r b c → r a c) :
    List.Sorted r (List.insertionSort r l) := by
  induction l with
  | nil => exact List.sorted_nil
  | cons a l ih =>
    rw [List.insertionSort]
    have hmem : ∀ x ∈ List.insertionSort r l, x ∈ l :=
      fun x hx => (List.perm_insertionSort r l).mem_iff.mp hx
    refine sorted_orderedInsert_of r a (List.insertionSort r l)
      (ih (fun x hx y hy => htot x (List.mem_cons_of_mem _ hx) y (List.mem_cons_of_mem _ hy))
          (fun x hx y hy z hz => htr x (List.mem_cons_of_mem _ hx) y
            (List.mem_cons_of_mem _ hy) z (List.mem_cons_of_mem _ hz))) ?_ ?_
    · intro b hb
      exact htot a (List.mem_cons_self a l) b (List.mem_cons_of_mem _ (hmem b hb))
    · intro b hb c hc
      exact htr a (List.mem_cons_self a l) b (List.mem_cons_of_mem _ (hmem b hb)) c
        (List.mem_cons_of_mem _ (hmem c hc))

end Anki

namespace Anki

/-- Claim C8: for entries with parseable due dates and present, non-zero ease
factors, `sortCardsByPriority` returns a permutation of its input, ordered by
descending days-overdue with ties broken by ascending ease factor, and
entries tied on both keys keep their relative input order (stability). -/
theorem sortCardsByPriority_correct (today : String) (cards : List Card)
    (hdate : ∀ c ∈ cards, (getDaysOverdue c.state today).isSome = true)
    (hease : ∀ c ∈ cards, ∃ e, c.state.easeFactor = some e ∧ e ≠ 0) :
    List.Perm (sortCardsByPriority today cards) cards ∧
    List.Pairwise (fun a b => ∀ da db ea eb,
      getDaysOverdue a.state today = some da → getDaysOverdue b.state today = some db →
      a.state.easeFactor = some ea → b.state.easeFactor = some eb →
      db < da ∨ (da = db ∧ ea ≤ eb)) (sortCardsByPriority today cards) ∧
    (∀ a b, List.Sublist [a, b] cards →
      getDaysOverdue a.state today = getDaysOverdue b.state today →
      effEase a = effEase b →
      List.Sublist [a, b] (sortCardsByPriority today cards)) := by
  have hkey : ∀ c ∈ cards, ∃ d, getDaysOverdue c.state today = some d := by
    intro c hc
    rcases Option.isSome_iff_exists.mp (hdate c hc) with ⟨d, hd⟩
    exact ⟨d, hd⟩
  have hsorted : List.Sorted (cardsLe today) (sortCardsByPriority today cards) := by
    refine sorted_insertionSort_of (cardsLe today) cards ?_ ?_
    · intro a ha b hb
      obtain ⟨da, hda⟩ := hkey a ha
      obtain ⟨db, hdb⟩ := hkey b hb
      exact cardsLe_total_of today a b da db hda hdb
    · intro a ha b hb c hc
      obtain ⟨da, hda⟩ := hkey a ha
      obtain ⟨db, hdb⟩ := hkey b hb
      obtain ⟨dc, hdc⟩ := hkey c hc
      exact cardsLe_trans_of today a b c da db dc hda hdb hdc
  refine ⟨List.perm_insertionSort (cardsLe today) cards, ?_, ?_⟩
  · rw [List.pairwise_iff_forall_sublist]
    intro a b hab
    have hmemab : a ∈ cards ∧ b ∈ cards := by
      have hsub := hab.subset
      exact ⟨(List.perm_insertionSort (cardsLe today) cards).subset (hsub (by simp)),
        (List.perm_insertionSort (cardsLe today) cards).subset (hsub (by simp))⟩
    have hle : cardsLe today a b :=
      List.pairwise_iff_forall_sublist.mp hsorted hab
    intro da db ea eb hda hdb hea heb
    have h1 := (cardsLe_iff today a b da db hda hdb).mp hle
    obtain ⟨ea', hea', hea0⟩ := hease a hmemab.1
    obtain ⟨eb', heb', heb0⟩ := hease b hmemab.2
    rw [hea] at hea'
    rw [heb] at heb'
    cases hea'
    cases heb'
    have hEa : effEase a = ea := by simp [effEase, hea, jsFalsyOr, hea0]
    have hEb : effEase b = eb := by simp [effEase, heb, jsFalsyOr, heb0]
    rw [hEa, hEb] at h1
    exact h1
  · intro a b hab htie hee
    have hmema : a ∈ cards := hab.subset (by simp)
    obtain ⟨d, hd⟩ := hkey a hmema
    have hd' : getDaysOverdue b.state today = some d := by rw [← htie]; exact hd
    exact List.pair_sublist_insertionSort (cardsLe_of_tied today a b d hd hd' hee) hab

/-- Cards used to witness the priority ordering: overdue by two days, and two
tied entries overdue by one day. -/
def cardQ1 : Card :=
  ⟨"q1", { cardNew2024 with dueDate := "2024-01-08" }⟩

def cardQ2 : Card :=
  ⟨"q2", { cardNew2024 with dueDate := "2024-01-09", easeFactor := some 1.5 }⟩

def cardQ3 : Card :=
  ⟨"q3", { cardNew2024 with dueDate := "2024-01-09", easeFactor := some 1.5 }⟩

/-- Claim C8 witness: the ordering theorem applied to a three-card queue with
a tie. -/
theorem sortCardsByPriority_correct_witness :
    List.Perm (sortCardsByPriority "2024-01-10" [cardQ1, cardQ2, cardQ3])
      [cardQ1, cardQ2, cardQ3] ∧
    List.Pairwise (fun a b => ∀ da db ea eb,
      getDaysOverdue a.state "2024-01-10" = some da →
      getDaysOverdue b.state "2024-01-10" = some db →
      a.state.easeFactor = some ea → b.state.easeFactor = some eb →
      db < da ∨ (da = db ∧ ea ≤ eb))
      (sortCardsByPriority "2024-01-10" [cardQ1, cardQ2, cardQ3]) ∧
    (∀ a b, List.Sublist [a, b] [cardQ1, cardQ2, cardQ3] →
      getDaysOverdue a.state "2024-01-10" = getDaysOverdue b.state "2024-01-10" →
      effEase a = effEase b →
      List.Sublist [a, b] (sortCardsByPriority "2024-01-10" [cardQ1, cardQ2, cardQ3])) := by
  refine sortCardsByPriority_correct "2024-01-10" [cardQ1, cardQ2, cardQ3] (by decide) ?_
  intro c hc
  simp only [List.mem_cons, List.not_mem_nil, or_false] at hc
  rcases hc with rfl | rfl | rfl
  · exact ⟨2.5, rfl, by norm_num⟩
  · exact ⟨1.5, rfl, by norm_num⟩
  · exact ⟨1.5, rfl, by norm_num⟩

end Anki

namespace Anki

/-! ## Claims about the session builder -/

lemma jsSlice_of_nonneg {α : Type} (l : List α) (n : ℤ) (h : 0 ≤ n) :
    jsSlice l n = l.take n.toNat := if_pos h

lemma jsFloor_nonneg {q : ℚ} (h : 0 ≤ q) : 0 ≤ jsFloor q := by
  rw [jsFloor_eq]
  exact Int.floor_nonneg.mpr h

lemma jsSlice_length_le (l : List Card) (n : ℤ) (h : 0 ≤ n) :
    ((jsSlice l n).length : ℤ) ≤ n := by
  rw [jsSlice_of_nonneg l n h]
  calc ((l.take n.toNat).length : ℤ) ≤ (n.toNat : ℤ) := by
        exact_mod_cast List.length_take_le _ _
    _ = n := Int.toNat_of_nonneg h

lemma two_mul_jsFloor_half_le (mc : ℤ) : 2 * jsFloor ((mc : ℚ) * 0.5) ≤ mc := by
  rw [jsFloor_eq]
  have h1 : (⌊(mc : ℚ) * 0.5⌋ : ℚ) ≤ (mc : ℚ) * 0.5 := Int.floor_le _
  have h2 : ((2 * ⌊(mc : ℚ) * 0.5⌋ : ℤ) : ℚ) ≤ (mc : ℚ) := by
    push_cast
    linarith
  exact_mod_cast h2

lemma ten_mul_jsFloor_point3_le (r : ℤ) : 10 * jsFloor ((r : ℚ) * 0.3) ≤ 3 * r := by
  rw [jsFloor_eq]
  have h1 : (⌊(r : ℚ) * 0.3⌋ : ℚ) ≤ (r : ℚ) * 0.3 := Int.floor_le _
  have h2 : ((10 * ⌊(r : ℚ) * 0.3⌋ : ℤ) : ℚ) ≤ ((3 * r : ℤ) : ℚ) := by push_cast; linarith
  exact_mod_cast h2

lemma jsFloor_point3_le (r : ℤ) (h : 0 ≤ r) : jsFloor ((r : ℚ) * 0.3) ≤ r := by
  rw [jsFloor_eq]
  have h1 : (⌊(r : ℚ) * 0.3⌋ : ℚ) ≤ (r : ℚ) * 0.3 := Int.floor_le _
  have h0 : (0 : ℚ) ≤ (r : ℚ) := by exact_mod_cast h
  have h2 : ((⌊(r : ℚ) * 0.3⌋ : ℤ) : ℚ) ≤ ((r : ℤ) : ℚ) := by linarith
  exact_mod_cast h2

/-- Claim C9 (amended): with nonnegative available time and a positive
per-card estimate, the recommended session splits as overdue-slice ++
new-slice ++ review-slice in that order, each a sublist of the corresponding
filtered class; the overdue slice is at most 50% of
`maxCards = floor(availableMinutes*60/avgSecondsPerCard)`, the new slice at
most 30% of the remaining space, and the total at most `maxCards`.  When the
input has no duplicates and no card is simultaneously overdue and new
(never-reviewed), the result has no duplicates; the overdue and new classes
do overlap on never-reviewed overdue cards, and such a card can appear twice
(see the counterexample). -/
theorem calculateOptimalSession_caps (today : String) (dueCards : List Card)
    (availableMinutes avgTimePerCard : ℚ)
    (hm : 0 ≤ availableMinutes) (ha : 0 < avgTimePerCard)
    (hnd : dueCards.Nodup)
    (hdisj : ∀ c ∈ dueCards, ¬ (isOverdueCard today c = true ∧ isNewCard c = true)) :
    ∃ O N R : List Card,
      (calculateOptimalSession today dueCards availableMinutes avgTimePerCard).recommendedCards
        = O ++ N ++ R ∧
      O.Sublist (dueCards.filter (isOverdueCard today)) ∧
      N.Sublist (dueCards.filter isNewCard) ∧
      R.Sublist (dueCards.filter (isReviewCard today)) ∧
      2 * (O.length : ℤ) ≤ jsFloor (availableMinutes * 60 / avgTimePerCard) ∧
      10 * (N.length : ℤ) ≤
        3 * (jsFloor (availableMinutes * 60 / avgTimePerCard) - (O.length : ℤ)) ∧
      ((O.length : ℤ) + N.length + R.length) ≤
        jsFloor (availableMinutes * 60 / avgTimePerCard) ∧
      (O ++ N ++ R).Nodup := by
  simp only [calculateOptimalSession]
  set mc : ℤ := jsFloor (availableMinutes * 60 / avgTimePerCard) with hmc
  have hmc0 : 0 ≤ mc := jsFloor_nonneg (by positivity)
  set ov := dueCards.filter (isOverdueCard today) with hov
  set nw := dueCards.filter isNewCard with hnw
  set rv := dueCards.filter (isReviewCard today) with hrv
  set mo : ℤ := jsFloor ((mc : ℚ) * 0.5) with hmo
  have hmo0 : 0 ≤ mo := jsFloor_nonneg (mul_nonneg (by exact_mod_cast hmc0) (by norm_num))
  set O := jsSlice ov mo with hO
  have hOs : O.Sublist ov := by
    rw [hO, jsSlice_of_nonneg _ _ hmo0]
    exact List.take_sublist _ _
  have hOlen : (O.length : ℤ) ≤ mo := by rw [hO]; exact jsSlice_length_le ov mo hmo0
  have h2O : 2 * (O.length : ℤ) ≤ mc :=
    le_trans (by linarith) (two_mul_jsFloor_half_le mc)
  set rs : ℤ := mc - (O.length : ℤ) with hrs
  have hrs0 : 0 ≤ rs := by
    have := two_mul_jsFloor_half_le mc
    simp only [hrs]
    omega
  set mn : ℤ := jsFloor ((rs : ℚ) * 0.3) with hmn
  have hmn0 : 0 ≤ mn := jsFloor_nonneg (mul_nonneg (by exact_mod_cast hrs0) (by norm_num))
  set N := jsSlice nw mn with hN
  have hNs : N.Sublist nw := by
    rw [hN, jsSlice_of_nonneg _ _ hmn0]
    exact List.take_sublist _ _
  have hNlen : (N.length : ℤ) ≤ mn := by rw [hN]; exact jsSlice_length_le nw mn hmn0
  have h10N : 10 * (N.length : ℤ) ≤ 3 * rs :=
    le_trans (by linarith) (ten_mul_jsFloor_point3_le rs)
  set fin : ℤ := mc - ((O ++ N).length : ℤ) with hfin
  have hfin' : fin = rs - (N.length : ℤ) := by
    simp only [hfin, hrs, List.length_append]
    push_cast
    ring
  have hfin0 : 0 ≤ fin := by
    rw [hfin']
    have := jsFloor_point3_le rs hrs0
    omega
  set R := jsSlice rv fin with hR
  have hRs : R.Sublist rv := by
    rw [hR, jsSlice_of_nonneg _ _ hfin0]
    exact List.take_sublist _ _
  have hRlen : (R.length : ℤ) ≤ fin := by rw [hR]; exact jsSlice_length_le rv fin hfin0
  refine ⟨O, N, R, rfl, hOs, hNs, hRs, h2O, by rw [hrs] at h10N; exact h10N, ?_, ?_⟩
  · rw [hfin'] at hRlen
    omega
  · have hOnd : O.Nodup := (hnd.filter _).sublist hOs
    have hNnd : N.Nodup := (hnd.filter _).sublist hNs
    have hRnd : R.Nodup := (hnd.filter _).sublist hRs
    have hON : ∀ x ∈ O, x ∉ N := by
      intro x hxO hxN
      have h1 := List.of_mem_filter (hOs.subset hxO)
      have h2 := List.of_mem_filter (hNs.subset hxN)
      have hxd : x ∈ dueCards := List.mem_of_mem_filter (hOs.subset hxO)
      exact hdisj x hxd ⟨h1, h2⟩
    have hOR : ∀ x ∈ O, x ∉ R := by
      intro x hxO hxR
      have h1 := List.of_mem_filter (hOs.subset hxO)
      have h2 := List.of_mem_filter (hRs.subset hxR)
      simp only [isOverdueCard] at h1
      simp only [isReviewCard, Bool.and_eq_true] at h2
      rcases hcase : getDaysOverdue x.state today with _ | d
      · rw [hcase] at h1; exact Bool.noConfusion h1
      · rw [hcase] at h1 h2
        have hd1 : 0 < d := by simpa using h1
        have hd2 : d ≤ 0 := by simpa using h2.2
        omega
    have hNR : ∀ x ∈ N, x ∉ R := by
      intro x hxN hxR
      have h1 := List.of_mem_filter (hNs.subset hxN)
      have h2 := List.of_mem_filter (hRs.subset hxR)
      simp only [isNewCard, decide_eq_true_eq] at h1
      simp only [isReviewCard, Bool.and_eq_true, decide_eq_true_eq] at h2
      rw [h1] at h2
      exact lt_irrefl 0 h2.1
    rw [List.append_assoc, List.nodup_append]
    refine ⟨hOnd, ?_, ?_⟩
    · rw [List.nodup_append]
      exact ⟨hNnd, hRnd, fun x hxN => hNR x hxN⟩
    · intro x hxO hxNR
      rcases List.mem_append.mp hxNR with hxN | hxR
      · exact hON x hxO hxN
      · exact hOR x hxO hxR

end Anki

namespace Anki

/-- A never-reviewed card that is nine days overdue on 1970-01-10: it belongs
to both the overdue class and the new class of `calculateOptimalSession`. -/
def cardDup : Card := ⟨"dup", { cardNew2024 with dueDate := "1970-01-01" }⟩

/-- Claim C9 (counterexample): with the default 20 minutes / 30 seconds
budget, a single never-reviewed overdue card is recommended twice — once from
the overdue slice and once from the new slice — so an entry can appear more
than once in the result. -/
theorem calculateOptimalSession_duplicate :
    (calculateOptimalSession "1970-01-10" [cardDup] 20 30).recommendedCards
      = [cardDup, cardDup] ∧
    ¬ ([cardDup, cardDup] : List Card).Nodup := by
  constructor
  · have ho : isOverdueCard "1970-01-10" cardDup = true := by decide
    have hn : isNewCard cardDup = true := by decide
    have hr : isReviewCard "1970-01-10" cardDup = false := by decide
    have hov : List.filter (isOverdueCard "1970-01-10") [cardDup] = [cardDup] := by
      simp [List.filter_cons, ho]
    have hnw : List.filter isNewCard [cardDup] = [cardDup] := by
      simp [List.filter_cons, hn]
    have hrv : List.filter (isReviewCard "1970-01-10") [cardDup] = [] := by
      simp [List.filter_cons, hr]
    have hmc : jsFloor ((20 : ℚ) * 60 / 30) = 40 := by rw [jsFloor_eq]; norm_num
    simp only [calculateOptimalSession, hov, hnw, hrv, hmc]
    have h1 : jsFloor (((40 : ℤ) : ℚ) * 0.5) = 20 := by rw [jsFloor_eq]; norm_num
    rw [h1, jsSlice_of_nonneg _ _ (by norm_num)]
    norm_num [jsSlice, jsFloor_eq]
    rfl
  · simp

end Anki

namespace Anki

/-- A twice-reviewed card due 1970-01-10, not yet due on 1970-01-05: an
ordinary review-class card. -/
def cardRev : Card :=
  ⟨"rev", { cardNew2024 with dueDate := "1970-01-10", repetitions := some 2 }⟩

/-- Claim C9 witness: the caps theorem applied to a one-card review queue
with the default budget. -/
theorem calculateOptimalSession_caps_witness :
    ∃ O N R : List Card,
      (calculateOptimalSession "1970-01-05" [cardRev] 20 30).recommendedCards
        = O ++ N ++ R ∧
      O.Sublist ([cardRev].filter (isOverdueCard "1970-01-05")) ∧
      N.Sublist ([cardRev].filter isNewCard) ∧
      R.Sublist ([cardRev].filter (isReviewCard "1970-01-05")) ∧
      2 * (O.length : ℤ) ≤ jsFloor ((20 : ℚ) * 60 / 30) ∧
      10 * (N.length : ℤ) ≤ 3 * (jsFloor ((20 : ℚ) * 60 / 30) - (O.length : ℤ)) ∧
      ((O.length : ℤ) + N.length + R.length) ≤ jsFloor ((20 : ℚ) * 60 / 30) ∧
      (O ++ N ++ R).Nodup :=
  calculateOptimalSession_caps "1970-01-05" [cardRev] 20 30 (by norm_num) (by norm_num)
    (by simp) (by decide)

end Anki
